import Mathlib

set_option maxHeartbeats 1000000

namespace RepologyRs

/-- Extra-field value: either a single string or a list of strings.
Mirrors `ExtraField` (`OneValue` / `ManyValues`) as used in
`src/repology-updater/src/parsing/package_maker.rs`. -/
inductive ExtraField where
  | OneValue (value : String)
  | ManyValues (values : List String)
  deriving DecidableEq, Repr

/-- Link role, a fixed enumeration defined outside the core
(`repology_common::LinkType`); modelled as an abstract code so theorems can
quantify over every role. -/
structure LinkType where
  code : Nat
  deriving DecidableEq, Repr

/-- A concrete link role for concrete test inputs, mirroring
`LinkType::UpstreamHomepage` used in the source tests. -/
def LinkType.UpstreamHomepage : LinkType := ⟨0⟩

/-- Behavioral flag set (`repology_common::PackageFlags`, a bitflags u32);
opaque to every operation in the builder file, modelled as a bit payload. -/
structure PackageFlags where
  bits : Nat
  deriving DecidableEq, Repr

/-- A typed outbound link: role, base url, optional fragment.
Mirrors the `Link` struct as constructed in `PackageMaker::add_link`. -/
structure Link where
  type : LinkType
  url : String
  fragment : Option String
  deriving DecidableEq, Repr

/-- Role-flag set, mirroring the `NameType` bitflags
(`SrcName`, `BinName`, `TrackName`, `DisplayName`, `ProjectNameSeed`):
one independent boolean per role. -/
structure NameType where
  srcName : Bool
  binName : Bool
  trackName : Bool
  displayName : Bool
  projectNameSeed : Bool
  deriving DecidableEq, Repr

/-- The empty role-flag set (`NameType::empty()`). -/
def NameType.empty : NameType := ⟨false, false, false, false, false⟩

/-- The full role-flag set (`NameType::all()`). -/
def NameType.all : NameType := ⟨true, true, true, true, true⟩

/-- Singleton role-flag set `NameType::SrcName`. -/
def NameType.SrcName : NameType := ⟨true, false, false, false, false⟩

/-- Singleton role-flag set `NameType::BinName`. -/
def NameType.BinName : NameType := ⟨false, true, false, false, false⟩

/-- Singleton role-flag set `NameType::TrackName`. -/
def NameType.TrackName : NameType := ⟨false, false, true, false, false⟩

/-- Singleton role-flag set `NameType::DisplayName`. -/
def NameType.DisplayName : NameType := ⟨false, false, false, true, false⟩

/-- Singleton role-flag set `NameType::ProjectNameSeed`. -/
def NameType.ProjectNameSeed : NameType := ⟨false, false, false, false, true⟩

/-- The builder state: every field of the `PackageMaker` struct.
`HashMap<String, ExtraField>` is modelled as the key-to-value map
`String → Option ExtraField` (hash-map iteration order is never observed by
the code under verification, only point lookups and inserts). -/
structure PackageMaker where
  subrepo : Option String
  srcname : Option String
  binname : Option String
  binnames : List String
  trackname : Option String
  visiblename : Option String
  projectname_seed : Option String
  rawversion : Option String
  arch : Option String
  maintainers : List String
  category : Option String
  comment : Option String
  licenses : List String
  extrafields : String → Option ExtraField
  cpe_vendor : Option String
  cpe_product : Option String
  cpe_edition : Option String
  cpe_lang : Option String
  cpe_sw_edition : Option String
  cpe_target_sw : Option String
  cpe_target_hw : Option String
  cpe_other : Option String
  links : List Link
  version : Option String
  flags : PackageFlags
  flavors : List String

/-- `PackageMaker::default()`: every field empty or unset. -/
def PackageMaker.default : PackageMaker where
  subrepo := none
  srcname := none
  binname := none
  binnames := []
  trackname := none
  visiblename := none
  projectname_seed := none
  rawversion := none
  arch := none
  maintainers := []
  category := none
  comment := none
  licenses := []
  extrafields := fun _ => none
  cpe_vendor := none
  cpe_product := none
  cpe_edition := none
  cpe_lang := none
  cpe_sw_edition := none
  cpe_target_sw := none
  cpe_target_hw := none
  cpe_other := none
  links := []
  version := none
  flags := ⟨0⟩
  flavors := []

/-- Point insert into the extra-field map (`HashMap::insert`). -/
def mapInsert (m : String → Option ExtraField) (k : String) (v : ExtraField) :
    String → Option ExtraField :=
  fun x => if x = k then some v else m x

namespace PackageMaker

/-- `PackageMaker::set_names`: for each role flag present, panic if the
corresponding slot is already set, otherwise store the name there; the
checks run in source order (src, bin, track, display, seed).  A panic is
modelled as `none`; a normal return as `some` of the updated builder. -/
def set_names (pm : PackageMaker) (name : String) (name_types : NameType) :
    Option PackageMaker := do
  let pm ←
    if name_types.srcName then
      if pm.srcname.isSome then none
      else some { pm with srcname := some name }
    else some pm
  let pm ←
    if name_types.binName then
      if pm.binname.isSome then none
      else some { pm with binname := some name }
    else some pm
  let pm ←
    if name_types.trackName then
      if pm.trackname.isSome then none
      else some { pm with trackname := some name }
    else some pm
  let pm ←
    if name_types.displayName then
      if pm.visiblename.isSome then none
      else some { pm with visiblename := some name }
    else some pm
  let pm ←
    if name_types.projectNameSeed then
      if pm.projectname_seed.isSome then none
      else some { pm with projectname_seed := some name }
    else some pm
  return pm

/-- `PackageMaker::add_binnames`: append each supplied name, in order. -/
def add_binnames (pm : PackageMaker) (binnames : List String) : PackageMaker :=
  { pm with binnames := pm.binnames ++ binnames }

/-- `PackageMaker::set_version`: store the value as both raw and
normalized version. -/
def set_version (pm : PackageMaker) (version : String) : PackageMaker :=
  { pm with rawversion := some version, version := some version }

/-- `PackageMaker::set_version_stripped`: store raw as raw version and the
stripper's result as normalized version.  The external `VersionStripper`
collaborator is modelled as a function on strings. -/
def set_version_stripped (pm : PackageMaker) (version : String)
    (stripper : String → String) : PackageMaker :=
  { pm with rawversion := some version, version := some (stripper version) }

/-- `PackageMaker::set_summary`. -/
def set_summary (pm : PackageMaker) (summary : String) : PackageMaker :=
  { pm with comment := some summary }

/-- `PackageMaker::add_maintainer`. -/
def add_maintainer (pm : PackageMaker) (maintainer : String) : PackageMaker :=
  { pm with maintainers := pm.maintainers ++ [maintainer] }

/-- `PackageMaker::add_maintainers`: `add_maintainer` on each, in order. -/
def add_maintainers (pm : PackageMaker) (ms : List String) : PackageMaker :=
  ms.foldl add_maintainer pm

/-- `PackageMaker::add_category`: first-write-wins, later calls ignored. -/
def add_category (pm : PackageMaker) (cat : String) : PackageMaker :=
  if pm.category.isNone then { pm with category := some cat } else pm

/-- `PackageMaker::add_categories`: `add_category` on each, in order. -/
def add_categories (pm : PackageMaker) (cats : List String) : PackageMaker :=
  cats.foldl add_category pm

/-- Rust `str::split_once` on a character list: split at the first
occurrence of `c`, returning the parts before and after it, or `none` when
`c` does not occur. -/
def splitOnceAux (l : List Char) (c : Char) : Option (List Char × List Char) :=
  match l with
  | [] => none
  | x :: xs =>
    if x = c then some ([], xs)
    else match splitOnceAux xs c with
      | some (a, b) => some (x :: a, b)
      | none => none

/-- Rust `str::split_once` on strings. -/
def splitOnce (s : String) (c : Char) : Option (String × String) :=
  match splitOnceAux s.data c with
  | some (a, b) => some (⟨a⟩, ⟨b⟩)
  | none => none

/-- `PackageMaker::add_link`: split the url at the first unicode `#` into
base and fragment and append one `Link`; with no `#` the whole url is the
base and the fragment is `None`. -/
def add_link (pm : PackageMaker) (link_type : LinkType) (url : String) :
    PackageMaker :=
  match splitOnce url '#' with
  | some (url, fragment) =>
    { pm with links := pm.links ++ [⟨link_type, url, some fragment⟩] }
  | none =>
    { pm with links := pm.links ++ [⟨link_type, url, none⟩] }

/-- `PackageMaker::add_links`: `add_link` on each url, in order. -/
def add_links (pm : PackageMaker) (link_type : LinkType) (urls : List String) :
    PackageMaker :=
  urls.foldl (fun pm url => add_link pm link_type url) pm

/-- `PackageMaker::set_extra_field_one`: unconditionally insert a
single-value entry at the key. -/
def set_extra_field_one (pm : PackageMaker) (name : String) (value : String) :
    PackageMaker :=
  { pm with extrafields := mapInsert pm.extrafields name (.OneValue value) }

/-- `PackageMaker::set_extra_field_many`: insert a multi-value entry at the
key when the collected values are non-empty, otherwise do nothing. -/
def set_extra_field_many (pm : PackageMaker) (name : String)
    (values : List String) : PackageMaker :=
  if values.isEmpty then pm
  else { pm with extrafields := mapInsert pm.extrafields name (.ManyValues values) }

end PackageMaker

/-- The classified data-class errors of `finalize`
(`PackageParsingError`, declared in `parsing/error.rs` and named variant by
variant inside `PackageMaker::finalize`). -/
inductive PackageParsingError where
  | MissingProjectNameSeed
  | EmptyProjectNameSeed
  | MissingVisibleName
  | EmptyVisibleName
  | MissingVersion
  | EmptyVersion
  | MissingPackageNames
  | EmptySrcName
  | EmptyBinName
  deriving DecidableEq, Repr

/-- The validated output record (`ParsedPackage`), fields as moved out of
the builder by `finalize`. -/
structure ParsedPackage where
  subrepo : Option String
  srcname : Option String
  binname : Option String
  binnames : List String
  trackname : Option String
  visiblename : String
  projectname_seed : String
  rawversion : String
  arch : Option String
  maintainers : List String
  category : Option String
  comment : Option String
  licenses : List String
  extrafields : String → Option ExtraField
  cpe_vendor : Option String
  cpe_product : Option String
  cpe_edition : Option String
  cpe_lang : Option String
  cpe_sw_edition : Option String
  cpe_target_sw : Option String
  cpe_target_hw : Option String
  cpe_other : Option String
  links : List Link
  version : String
  flags : PackageFlags
  flavors : List String

/-- Outcome of `finalize`: a record, a classified error, or the internal
`expect` panic on a missing raw version. -/
inductive FinalizeResult where
  | ok (package : ParsedPackage)
  | err (error : PackageParsingError)
  | panicked

/-- Rust `Option::is_some_and(|name| name.is_empty())`. -/
def isSomeAndEmpty : Option String → Bool
  | some s => s.isEmpty
  | none => false

namespace PackageMaker

/-- `PackageMaker::finalize`: the fixed validation sequence, short-circuiting
on the first failure, then the move of every field into `ParsedPackage`;
the `expect` on the raw version is the `panicked` outcome. -/
def finalize (pm : PackageMaker) : FinalizeResult :=
  match pm.projectname_seed with
  | none => .err .MissingProjectNameSeed
  | some projectname_seed =>
    if projectname_seed.isEmpty then .err .EmptyProjectNameSeed
    else match pm.visiblename with
    | none => .err .MissingVisibleName
    | some visiblename =>
      if visiblename.isEmpty then .err .EmptyVisibleName
      else match pm.version with
      | none => .err .MissingVersion
      | some version =>
        if version.isEmpty then .err .EmptyVersion
        else if pm.srcname.isNone && pm.binname.isNone && pm.binnames.isEmpty then
          .err .MissingPackageNames
        else if isSomeAndEmpty pm.srcname then .err .EmptySrcName
        else if isSomeAndEmpty pm.binname || pm.binnames.any (fun name => name.isEmpty) then
          .err .EmptyBinName
        else match pm.rawversion with
        | none => .panicked
        | some rawversion =>
          .ok {
            subrepo := pm.subrepo
            srcname := pm.srcname
            binname := pm.binname
            binnames := pm.binnames
            trackname := pm.trackname
            visiblename := visiblename
            projectname_seed := projectname_seed
            rawversion := rawversion
            arch := pm.arch
            maintainers := pm.maintainers
            category := pm.category
            comment := pm.comment
            licenses := pm.licenses
            extrafields := pm.extrafields
            cpe_vendor := pm.cpe_vendor
            cpe_product := pm.cpe_product
            cpe_edition := pm.cpe_edition
            cpe_lang := pm.cpe_lang
            cpe_sw_edition := pm.cpe_sw_edition
            cpe_target_sw := pm.cpe_target_sw
            cpe_target_hw := pm.cpe_target_hw
            cpe_other := pm.cpe_other
            links := pm.links
            version := version
            flags := pm.flags
            flavors := pm.flavors
          }

end PackageMaker

end RepologyRs

namespace RepologyRs

open PackageMaker

/-- Characterization of `set_names`: the call panics exactly when some
targeted slot is already set, and otherwise writes the name into every
targeted slot, leaving all other fields unchanged. -/
theorem set_names_spec (pm : PackageMaker) (name : String) (nt : NameType) :
    pm.set_names name nt =
      if (nt.srcName && pm.srcname.isSome) || (nt.binName && pm.binname.isSome) ||
         (nt.trackName && pm.trackname.isSome) || (nt.displayName && pm.visiblename.isSome) ||
         (nt.projectNameSeed && pm.projectname_seed.isSome) then none
      else some { pm with
        srcname := if nt.srcName then some name else pm.srcname
        binname := if nt.binName then some name else pm.binname
        trackname := if nt.trackName then some name else pm.trackname
        visiblename := if nt.displayName then some name else pm.visiblename
        projectname_seed := if nt.projectNameSeed then some name else pm.projectname_seed } := by
  obtain ⟨s, b, t, d, p⟩ := nt
  obtain ⟨sub, src, bin, bins, trk, vis, seed, raw, arch, mnt, cat, cmt, lic, ef,
    c1, c2, c3, c4, c5, c6, c7, c8, lnk, ver, flg, flv⟩ := pm
  cases s <;> cases b <;> cases t <;> cases d <;> cases p <;>
    cases src <;> cases bin <;> cases trk <;> cases vis <;> cases seed <;> rfl

end RepologyRs

namespace RepologyRs

/-- C1: set_names panics (defect-class failure) if and only if some targeted
role's identity slot (srcname, binname, trackname, visiblename,
projectname_seed) is already set, whatever other roles are bundled; when no
targeted slot is set, the value is copied into every targeted slot and the
call succeeds. -/
theorem set_names_panics_iff_slot_taken (pm : PackageMaker) (name : String)
    (nt : NameType) (hne : nt ≠ NameType.empty) :
    (pm.set_names name nt = none ↔
      (nt.srcName = true ∧ pm.srcname.isSome = true) ∨
      (nt.binName = true ∧ pm.binname.isSome = true) ∨
      (nt.trackName = true ∧ pm.trackname.isSome = true) ∨
      (nt.displayName = true ∧ pm.visiblename.isSome = true) ∨
      (nt.projectNameSeed = true ∧ pm.projectname_seed.isSome = true)) ∧
    (¬ ((nt.srcName = true ∧ pm.srcname.isSome = true) ∨
        (nt.binName = true ∧ pm.binname.isSome = true) ∨
        (nt.trackName = true ∧ pm.trackname.isSome = true) ∨
        (nt.displayName = true ∧ pm.visiblename.isSome = true) ∨
        (nt.projectNameSeed = true ∧ pm.projectname_seed.isSome = true)) →
      pm.set_names name nt = some { pm with
        srcname := if nt.srcName then some name else pm.srcname
        binname := if nt.binName then some name else pm.binname
        trackname := if nt.trackName then some name else pm.trackname
        visiblename := if nt.displayName then some name else pm.visiblename
        projectname_seed := if nt.projectNameSeed then some name
          else pm.projectname_seed }) := by
  rw [set_names_spec]
  by_cases hc : ((nt.srcName && pm.srcname.isSome) || (nt.binName && pm.binname.isSome) ||
      (nt.trackName && pm.trackname.isSome) || (nt.displayName && pm.visiblename.isSome) ||
      (nt.projectNameSeed && pm.projectname_seed.isSome)) = true
  · rw [if_pos hc]
    simp only [Bool.or_eq_true, Bool.and_eq_true] at hc
    exact ⟨iff_of_true rfl (by tauto), fun hnd => absurd (show _ from by tauto) hnd⟩
  · rw [if_neg hc]
    have hc' := hc
    simp only [Bool.or_eq_true, Bool.and_eq_true] at hc'
    exact ⟨iff_of_false (by simp) (by tauto), fun _ => rfl⟩

/-- Witness for C1: with srcname already set, bundling SrcName panics; on a
fresh builder the same call succeeds and fills the slot. -/
theorem set_names_panics_iff_slot_taken_witness :
    ({ PackageMaker.default with srcname := some "a" } : PackageMaker).set_names
        "foo" NameType.SrcName = none ∧
    PackageMaker.default.set_names "foo" NameType.SrcName =
      some { PackageMaker.default with srcname := some "foo" } := by
  constructor
  · exact (set_names_panics_iff_slot_taken
      { PackageMaker.default with srcname := some "a" } "foo" NameType.SrcName
      (by decide)).1.mpr (Or.inl ⟨rfl, rfl⟩)
  · exact (set_names_panics_iff_slot_taken PackageMaker.default "foo"
      NameType.SrcName (by decide)).2 (by decide)

/-- C9: calling set_names with the empty role-flag set never panics and
leaves the builder unchanged. -/
theorem set_names_empty_roleset_noop (pm : PackageMaker) (name : String) :
    pm.set_names name NameType.empty = some pm := rfl

/-- A successful set_names call never touches the version fields. -/
theorem set_names_preserves_versions (pm pm' : PackageMaker) (name : String)
    (nt : NameType) (h : pm.set_names name nt = some pm') :
    pm'.rawversion = pm.rawversion ∧ pm'.version = pm.version := by
  rw [set_names_spec] at h
  split at h
  · exact absurd h (by simp)
  · obtain rfl := Option.some.inj h
    exact ⟨rfl, rfl⟩

end RepologyRs

namespace RepologyRs

/-- Builder states reachable from the default builder through the mutating
operations of the source file (a panicking set_names produces no state). -/
inductive Reachable : PackageMaker → Prop where
  | init : Reachable PackageMaker.default
  | set_names (pm pm' : PackageMaker) (name : String) (nt : NameType) :
      Reachable pm → pm.set_names name nt = some pm' → Reachable pm'
  | add_binnames (pm : PackageMaker) (names : List String) :
      Reachable pm → Reachable (pm.add_binnames names)
  | set_version (pm : PackageMaker) (v : String) :
      Reachable pm → Reachable (pm.set_version v)
  | set_version_stripped (pm : PackageMaker) (v : String)
      (stripper : String → String) :
      Reachable pm → Reachable (pm.set_version_stripped v stripper)
  | set_summary (pm : PackageMaker) (s : String) :
      Reachable pm → Reachable (pm.set_summary s)
  | add_maintainer (pm : PackageMaker) (m : String) :
      Reachable pm → Reachable (pm.add_maintainer m)
  | add_maintainers (pm : PackageMaker) (ms : List String) :
      Reachable pm → Reachable (pm.add_maintainers ms)
  | add_category (pm : PackageMaker) (c : String) :
      Reachable pm → Reachable (pm.add_category c)
  | add_categories (pm : PackageMaker) (cs : List String) :
      Reachable pm → Reachable (pm.add_categories cs)
  | add_link (pm : PackageMaker) (lt : LinkType) (url : String) :
      Reachable pm → Reachable (pm.add_link lt url)
  | add_links (pm : PackageMaker) (lt : LinkType) (urls : List String) :
      Reachable pm → Reachable (pm.add_links lt urls)
  | set_extra_field_one (pm : PackageMaker) (k v : String) :
      Reachable pm → Reachable (pm.set_extra_field_one k v)
  | set_extra_field_many (pm : PackageMaker) (k : String) (vs : List String) :
      Reachable pm → Reachable (pm.set_extra_field_many k vs)

/-- add_category never touches the version fields. -/
theorem add_category_preserves_versions (pm : PackageMaker) (c : String) :
    (pm.add_category c).rawversion = pm.rawversion ∧
    (pm.add_category c).version = pm.version := by
  unfold PackageMaker.add_category
  split <;> exact ⟨rfl, rfl⟩

/-- add_categories never touches the version fields. -/
theorem add_categories_preserves_versions (pm : PackageMaker) (cs : List String) :
    (pm.add_categories cs).rawversion = pm.rawversion ∧
    (pm.add_categories cs).version = pm.version := by
  induction cs generalizing pm with
  | nil => exact ⟨rfl, rfl⟩
  | cons c cs ih =>
    obtain ⟨h1, h2⟩ := add_category_preserves_versions pm c
    obtain ⟨g1, g2⟩ := ih (pm.add_category c)
    exact ⟨g1.trans h1, g2.trans h2⟩

/-- add_maintainers never touches the version fields. -/
theorem add_maintainers_preserves_versions (pm : PackageMaker) (ms : List String) :
    (pm.add_maintainers ms).rawversion = pm.rawversion ∧
    (pm.add_maintainers ms).version = pm.version := by
  induction ms generalizing pm with
  | nil => exact ⟨rfl, rfl⟩
  | cons m ms ih => exact ih (pm.add_maintainer m)

/-- add_link never touches the version fields. -/
theorem add_link_preserves_versions (pm : PackageMaker) (lt : LinkType)
    (url : String) :
    (pm.add_link lt url).rawversion = pm.rawversion ∧
    (pm.add_link lt url).version = pm.version := by
  unfold PackageMaker.add_link
  split <;> exact ⟨rfl, rfl⟩

/-- add_links never touches the version fields. -/
theorem add_links_preserves_versions (pm : PackageMaker) (lt : LinkType)
    (urls : List String) :
    (pm.add_links lt urls).rawversion = pm.rawversion ∧
    (pm.add_links lt urls).version = pm.version := by
  induction urls generalizing pm with
  | nil => exact ⟨rfl, rfl⟩
  | cons u us ih =>
    obtain ⟨h1, h2⟩ := add_link_preserves_versions pm lt u
    obtain ⟨g1, g2⟩ := ih (pm.add_link lt u)
    exact ⟨g1.trans h1, g2.trans h2⟩

/-- set_extra_field_many never touches the version fields. -/
theorem set_extra_field_many_preserves_versions (pm : PackageMaker)
    (k : String) (vs : List String) :
    (pm.set_extra_field_many k vs).rawversion = pm.rawversion ∧
    (pm.set_extra_field_many k vs).version = pm.version := by
  unfold PackageMaker.set_extra_field_many
  split <;> exact ⟨rfl, rfl⟩

/-- C4: on every reachable builder state the raw version and the normalized
version are set or unset together. -/
theorem reachable_versions_paired (pm : PackageMaker) (h : Reachable pm) :
    pm.rawversion.isSome = pm.version.isSome := by
  induction h with
  | init => rfl
  | set_names pm pm' name nt hr hs ih =>
    obtain ⟨h1, h2⟩ := set_names_preserves_versions pm pm' name nt hs
    rw [h1, h2]; exact ih
  | add_binnames pm names hr ih => exact ih
  | set_version pm v hr ih => rfl
  | set_version_stripped pm v stripper hr ih => rfl
  | set_summary pm s hr ih => exact ih
  | add_maintainer pm m hr ih => exact ih
  | add_maintainers pm ms hr ih =>
    obtain ⟨h1, h2⟩ := add_maintainers_preserves_versions pm ms
    rw [h1, h2]; exact ih
  | add_category pm c hr ih =>
    obtain ⟨h1, h2⟩ := add_category_preserves_versions pm c
    rw [h1, h2]; exact ih
  | add_categories pm cs hr ih =>
    obtain ⟨h1, h2⟩ := add_categories_preserves_versions pm cs
    rw [h1, h2]; exact ih
  | add_link pm lt url hr ih =>
    obtain ⟨h1, h2⟩ := add_link_preserves_versions pm lt url
    rw [h1, h2]; exact ih
  | add_links pm lt urls hr ih =>
    obtain ⟨h1, h2⟩ := add_links_preserves_versions pm lt urls
    rw [h1, h2]; exact ih
  | set_extra_field_one pm k v hr ih => exact ih
  | set_extra_field_many pm k vs hr ih =>
    obtain ⟨h1, h2⟩ := set_extra_field_many_preserves_versions pm k vs
    rw [h1, h2]; exact ih

/-- Witness for C4: the invariant evaluated on the default builder. -/
theorem reachable_versions_paired_witness :
    PackageMaker.default.rawversion.isSome = PackageMaker.default.version.isSome :=
  reachable_versions_paired PackageMaker.default Reachable.init

end RepologyRs

namespace RepologyRs

/-- C5: set_version stores the value as both raw and normalized version,
set_version_stripped stores the value as raw and the stripper's result as
normalized; both unconditionally overwrite any previous pair and never
fail. -/
theorem set_version_overwrites (pm : PackageMaker) (raw : String)
    (stripper : String → String) :
    pm.set_version raw = { pm with rawversion := some raw, version := some raw } ∧
    pm.set_version_stripped raw stripper =
      { pm with rawversion := some raw, version := some (stripper raw) } :=
  ⟨rfl, rfl⟩

/-- The category after add_categories: first element wins on a fresh
category slot, otherwise the previous category is kept. -/
theorem add_categories_category (pm : PackageMaker) (cats : List String) :
    (pm.add_categories cats).category =
      if pm.category = none then cats.head? else pm.category := by
  induction cats generalizing pm with
  | nil =>
    rcases h : pm.category with _ | c <;> simp [PackageMaker.add_categories, h]
  | cons c cs ih =>
    have step : pm.add_categories (c :: cs) = (pm.add_category c).add_categories cs := rfl
    rw [step, ih]
    rcases h : pm.category with _ | d <;>
      simp [PackageMaker.add_category, h, Option.isNone]

/-- C6: category assignment is first-write-wins: the first add_category (or
the first element given to add_categories) sets the category and every
later call is silently ignored; add_category x then add_category y leaves
category x. -/
theorem add_category_first_write_wins (pm : PackageMaker) (x y : String)
    (cats : List String) :
    (pm.category = none → pm.add_category x = { pm with category := some x }) ∧
    (pm.category ≠ none → pm.add_category x = pm) ∧
    (pm.category = none → ((pm.add_category x).add_category y).category = some x) ∧
    ((pm.add_categories cats).category =
      if pm.category = none then cats.head? else pm.category) := by
  refine ⟨?_, ?_, ?_, add_categories_category pm cats⟩
  · intro h
    simp [PackageMaker.add_category, h, Option.isNone]
  · intro h
    rcases hc : pm.category with _ | d
    · exact absurd hc h
    · simp [PackageMaker.add_category, hc, Option.isNone]
  · intro h
    simp [PackageMaker.add_category, h, Option.isNone]

/-- Witness for C6: on the default builder, add_category x then
add_category y keeps category x, and add_categories picks the first
element. -/
theorem add_category_first_write_wins_witness :
    ((PackageMaker.default.add_category "x").add_category "y").category = some "x" ∧
    (PackageMaker.default.add_categories ["a", "b"]).category = some "a" := by
  constructor
  · exact (add_category_first_write_wins PackageMaker.default "x" "y" []).2.2.1 rfl
  · have h := (add_category_first_write_wins PackageMaker.default "x" "y"
      ["a", "b"]).2.2.2
    simpa using h

/-- C7: set_extra_field_one unconditionally replaces the entry at the key
with the single-value variant; set_extra_field_many with non-empty values
replaces the entry with the multi-value variant holding the values verbatim
(duplicates preserved), and with empty values is a no-op; entries at other
keys are never touched. -/
theorem set_extra_field_replacement (pm : PackageMaker) (k k' v : String)
    (vs : List String) :
    (pm.set_extra_field_one k v).extrafields k = some (.OneValue v) ∧
    (k' ≠ k → (pm.set_extra_field_one k v).extrafields k' = pm.extrafields k') ∧
    (vs ≠ [] → (pm.set_extra_field_many k vs).extrafields k = some (.ManyValues vs)) ∧
    (vs ≠ [] → k' ≠ k →
      (pm.set_extra_field_many k vs).extrafields k' = pm.extrafields k') ∧
    (pm.set_extra_field_many k [] = pm) := by
  refine ⟨?_, ?_, ?_, ?_, rfl⟩
  · simp [PackageMaker.set_extra_field_one, mapInsert]
  · intro h
    simp [PackageMaker.set_extra_field_one, mapInsert, h]
  · intro h
    rcases vs with _ | ⟨w, ws⟩
    · exact absurd rfl h
    · simp [PackageMaker.set_extra_field_many, mapInsert]
  · intro h h'
    rcases vs with _ | ⟨w, ws⟩
    · exact absurd rfl h
    · simp [PackageMaker.set_extra_field_many, mapInsert, h']

/-- Witness for C7: two many-writes at one key leave exactly the second
list, a one-write at another key is untouched by them, and an empty
many-write changes nothing. -/
theorem set_extra_field_replacement_witness :
    (((PackageMaker.default.set_extra_field_many "k" ["a", "a"]).set_extra_field_many
        "k" ["b", "c"]).extrafields "k" = some (.ManyValues ["b", "c"])) ∧
    ((PackageMaker.default.set_extra_field_one "j" "v").extrafields "j" =
      some (.OneValue "v")) ∧
    (((PackageMaker.default.set_extra_field_one "j" "v").set_extra_field_many
        "k" ["b"]).extrafields "j" = some (.OneValue "v")) ∧
    ((PackageMaker.default.set_extra_field_many "k" [] = PackageMaker.default)) := by
  refine ⟨?_, ?_, ?_, ?_⟩
  · exact (set_extra_field_replacement
      (PackageMaker.default.set_extra_field_many "k" ["a", "a"]) "k" "j" "v"
      ["b", "c"]).2.2.1 (by decide)
  · exact (set_extra_field_replacement PackageMaker.default "j" "k" "v" []).1
  · have h := (set_extra_field_replacement
      (PackageMaker.default.set_extra_field_one "j" "v") "k" "j" "v"
      ["b"]).2.2.2.1 (by decide) (by decide)
    rw [h]
    exact (set_extra_field_replacement PackageMaker.default "j" "k" "v" []).1
  · exact (set_extra_field_replacement PackageMaker.default "k" "j" "v" []).2.2.2.2

end RepologyRs

namespace RepologyRs

open PackageMaker

/-- splitOnceAux finds nothing when the delimiter does not occur. -/
theorem splitOnceAux_eq_none (l : List Char) (c : Char) (h : c ∉ l) :
    splitOnceAux l c = none := by
  induction l with
  | nil => rfl
  | cons x xs ih =>
    rw [List.mem_cons, not_or] at h
    unfold splitOnceAux
    rw [if_neg (fun hxc => h.1 hxc.symm), ih h.2]

/-- splitOnceAux splits at the first occurrence of the delimiter. -/
theorem splitOnceAux_first (a b : List Char) (c : Char) (h : c ∉ a) :
    splitOnceAux (a ++ c :: b) c = some (a, b) := by
  induction a with
  | nil => simp [splitOnceAux]
  | cons x xs ih =>
    rw [List.mem_cons, not_or] at h
    rw [List.cons_append]
    unfold splitOnceAux
    rw [if_neg (fun hxc => h.1 hxc.symm), ih h.2]

/-- C8: add_link appends exactly one link record; the base url is
everything before the first hash character and the fragment is everything
after it, and a url with no hash gives the whole url with no fragment. -/
theorem add_link_splits_on_first_hash (pm : PackageMaker) (lt : LinkType)
    (url a b : String) :
    ('#' ∉ url.data →
      pm.add_link lt url = { pm with links := pm.links ++ [⟨lt, url, none⟩] }) ∧
    (url.data = a.data ++ '#' :: b.data → '#' ∉ a.data →
      pm.add_link lt url = { pm with links := pm.links ++ [⟨lt, a, some b⟩] }) := by
  constructor
  · intro h
    unfold PackageMaker.add_link splitOnce
    rw [splitOnceAux_eq_none url.data '#' h]
  · intro hurl ha
    unfold PackageMaker.add_link splitOnce
    rw [hurl, splitOnceAux_first a.data b.data '#' ha]

/-- Witness for C8: the two concrete urls of the source tests. -/
theorem add_link_splits_on_first_hash_witness :
    (PackageMaker.default.add_link LinkType.UpstreamHomepage "https://example.com/" =
      { PackageMaker.default with
        links := [⟨LinkType.UpstreamHomepage, "https://example.com/", none⟩] }) ∧
    (PackageMaker.default.add_link LinkType.UpstreamHomepage
        "https://example.com/foo#frag" =
      { PackageMaker.default with
        links := [⟨LinkType.UpstreamHomepage, "https://example.com/foo",
          some "frag"⟩] }) := by
  constructor
  · exact (add_link_splits_on_first_hash PackageMaker.default
      LinkType.UpstreamHomepage "https://example.com/" "" "").1 (by decide)
  · exact (add_link_splits_on_first_hash PackageMaker.default
      LinkType.UpstreamHomepage "https://example.com/foo#frag"
      "https://example.com/foo" "frag").2 (by decide) (by decide)

end RepologyRs

namespace RepologyRs

/-- A non-empty string is not isEmpty. -/
theorem isEmpty_false_of_ne (s : String) (h : s ≠ "") : s.isEmpty = false :=
  Bool.eq_false_iff.mpr (fun hh => h ((String.isEmpty_iff s).mp hh))

/-- C2: finalize checks, in order: seed missing then empty, display name
missing then empty, normalized version missing then empty, all package
names absent, empty source name, then empty binary name (single slot or
list entry); the first failing check's distinct error is returned and no
later check can alter it. -/
theorem finalize_first_failure (pm : PackageMaker) :
    (pm.projectname_seed = none →
      pm.finalize = .err .MissingProjectNameSeed) ∧
    (pm.projectname_seed = some "" →
      pm.finalize = .err .EmptyProjectNameSeed) ∧
    (∀ seed, pm.projectname_seed = some seed → seed ≠ "" →
      pm.visiblename = none → pm.finalize = .err .MissingVisibleName) ∧
    (∀ seed, pm.projectname_seed = some seed → seed ≠ "" →
      pm.visiblename = some "" → pm.finalize = .err .EmptyVisibleName) ∧
    (∀ seed vis, pm.projectname_seed = some seed → seed ≠ "" →
      pm.visiblename = some vis → vis ≠ "" → pm.version = none →
      pm.finalize = .err .MissingVersion) ∧
    (∀ seed vis, pm.projectname_seed = some seed → seed ≠ "" →
      pm.visiblename = some vis → vis ≠ "" → pm.version = some "" →
      pm.finalize = .err .EmptyVersion) ∧
    (∀ seed vis ver, pm.projectname_seed = some seed → seed ≠ "" →
      pm.visiblename = some vis → vis ≠ "" → pm.version = some ver → ver ≠ "" →
      pm.srcname = none → pm.binname = none → pm.binnames = [] →
      pm.finalize = .err .MissingPackageNames) ∧
    (∀ seed vis ver, pm.projectname_seed = some seed → seed ≠ "" →
      pm.visiblename = some vis → vis ≠ "" → pm.version = some ver → ver ≠ "" →
      pm.srcname = some "" → pm.finalize = .err .EmptySrcName) ∧
    (∀ seed vis ver, pm.projectname_seed = some seed → seed ≠ "" →
      pm.visiblename = some vis → vis ≠ "" → pm.version = some ver → ver ≠ "" →
      (∀ s, pm.srcname = some s → s ≠ "") →
      (pm.binname = some "" ∨ "" ∈ pm.binnames) →
      pm.finalize = .err .EmptyBinName) := by
  refine ⟨?_, ?_, ?_, ?_, ?_, ?_, ?_, ?_, ?_⟩
  · intro h1
    simp [PackageMaker.finalize, h1]
  · intro h1
    simp [PackageMaker.finalize, h1, String.isEmpty_iff]
  · intro seed h1 h2 h3
    simp [PackageMaker.finalize, h1, h2, h3, String.isEmpty_iff]
  · intro seed h1 h2 h3
    simp [PackageMaker.finalize, h1, h2, h3, String.isEmpty_iff]
  · intro seed vis h1 h2 h3 h4 h5
    simp [PackageMaker.finalize, h1, h2, h3, h4, h5, String.isEmpty_iff]
  · intro seed vis h1 h2 h3 h4 h5
    simp [PackageMaker.finalize, h1, h2, h3, h4, h5, String.isEmpty_iff]
  · intro seed vis ver h1 h2 h3 h4 h5 h6 h7 h8 h9
    simp [PackageMaker.finalize, h1, h2, h3, h4, h5, h6, h7, h8, h9,
      String.isEmpty_iff]
  · intro seed vis ver h1 h2 h3 h4 h5 h6 h7
    simp [PackageMaker.finalize, isSomeAndEmpty, h1, h2, h3, h4, h5, h6, h7,
      String.isEmpty_iff]
  · intro seed vis ver h1 h2 h3 h4 h5 h6 hsrc hbin
    rcases hs : pm.srcname with _ | s
    · rcases hbin with hb | hb
      · simp [PackageMaker.finalize, isSomeAndEmpty, h1, h2, h3, h4, h5, h6,
          hs, hb, String.isEmpty_iff]
      · have hne : pm.binnames ≠ [] := List.ne_nil_of_mem hb
        have hex : ∃ x ∈ pm.binnames, x = "" := ⟨"", hb, rfl⟩
        simp [PackageMaker.finalize, isSomeAndEmpty, h1, h2, h3, h4, h5, h6,
          hs, hne, hex, String.isEmpty_iff]
    · have hsne : s ≠ "" := hsrc s hs
      rcases hbin with hb | hb
      · simp [PackageMaker.finalize, isSomeAndEmpty, h1, h2, h3, h4, h5, h6,
          hs, hsne, hb, String.isEmpty_iff]
      · have hex : ∃ x ∈ pm.binnames, x = "" := ⟨"", hb, rfl⟩
        simp [PackageMaker.finalize, isSomeAndEmpty, h1, h2, h3, h4, h5, h6,
          hs, hsne, hex, String.isEmpty_iff]

/-- Witness for C2: a builder whose seed is present but empty fails with
the empty-seed error, through the second check of the chain. -/
theorem finalize_first_failure_witness :
    ({ PackageMaker.default with projectname_seed := some "" } :
        PackageMaker).finalize = .err .EmptyProjectNameSeed :=
  (finalize_first_failure
    { PackageMaker.default with projectname_seed := some "" }).2.1 rfl

end RepologyRs

namespace RepologyRs

/-- Counterexample to C3: on the builder with no names set and the version
set, finalize returns the missing-seed error, not the missing-package-names
error the claim states. -/
theorem finalize_no_names_counterexample :
    (PackageMaker.default.set_version "1.2.3").finalize =
        .err .MissingProjectNameSeed ∧
    (PackageMaker.default.set_version "1.2.3").finalize ≠
        .err .MissingPackageNames := by
  constructor
  · rfl
  · simp [PackageMaker.finalize, PackageMaker.set_version, PackageMaker.default]

/-- C3 (amended): a builder whose seed and display name are set and
non-empty, whose srcname and binname are unset with an empty binary-name
list, and whose version is set and non-empty, fails finalize with the
missing-package-names error and no other. -/
theorem finalize_no_package_names (pm : PackageMaker) (seed vis ver : String)
    (h1 : pm.projectname_seed = some seed) (h2 : seed ≠ "")
    (h3 : pm.visiblename = some vis) (h4 : vis ≠ "")
    (h5 : pm.version = some ver) (h6 : ver ≠ "")
    (h7 : pm.srcname = none) (h8 : pm.binname = none) (h9 : pm.binnames = []) :
    pm.finalize = .err .MissingPackageNames := by
  simp [PackageMaker.finalize, h1, h2, h3, h4, h5, h6, h7, h8, h9,
    String.isEmpty_iff]

/-- Witness for the amended C3. -/
theorem finalize_no_package_names_witness :
    ({ PackageMaker.default with
        projectname_seed := some "proj"
        visiblename := some "disp"
        rawversion := some "1.2.3"
        version := some "1.2.3" } : PackageMaker).finalize =
      .err .MissingPackageNames :=
  finalize_no_package_names
    { PackageMaker.default with
      projectname_seed := some "proj"
      visiblename := some "disp"
      rawversion := some "1.2.3"
      version := some "1.2.3" }
    "proj" "disp" "1.2.3" rfl (by decide) rfl (by decide) rfl (by decide)
    rfl rfl rfl

/-- C10: when the seed, display-name and version checks pass, the raw
version is present, and the identity checks pass, finalize succeeds and
moves every remaining field verbatim into the record with no further
validation — in particular an empty tracking identity causes no error. -/
theorem finalize_success_verbatim (pm : PackageMaker) (seed vis ver raw : String)
    (h1 : pm.projectname_seed = some seed) (h2 : seed ≠ "")
    (h3 : pm.visiblename = some vis) (h4 : vis ≠ "")
    (h5 : pm.version = some ver) (h6 : ver ≠ "")
    (hraw : pm.rawversion = some raw)
    (hnames : ¬(pm.srcname = none ∧ pm.binname = none ∧ pm.binnames = []))
    (hsrc : ∀ s, pm.srcname = some s → s ≠ "")
    (hbin : ∀ s, pm.binname = some s → s ≠ "")
    (hbins : ∀ s, s ∈ pm.binnames → s ≠ "") :
    pm.finalize = .ok {
      subrepo := pm.subrepo
      srcname := pm.srcname
      binname := pm.binname
      binnames := pm.binnames
      trackname := pm.trackname
      visiblename := vis
      projectname_seed := seed
      rawversion := raw
      arch := pm.arch
      maintainers := pm.maintainers
      category := pm.category
      comment := pm.comment
      licenses := pm.licenses
      extrafields := pm.extrafields
      cpe_vendor := pm.cpe_vendor
      cpe_product := pm.cpe_product
      cpe_edition := pm.cpe_edition
      cpe_lang := pm.cpe_lang
      cpe_sw_edition := pm.cpe_sw_edition
      cpe_target_sw := pm.cpe_target_sw
      cpe_target_hw := pm.cpe_target_hw
      cpe_other := pm.cpe_other
      links := pm.links
      version := ver
      flags := pm.flags
      flavors := pm.flavors } := by
  have hsrcb : isSomeAndEmpty pm.srcname = false := by
    rcases h : pm.srcname with _ | s
    · rfl
    · exact isEmpty_false_of_ne s (hsrc s h)
  have hbinb : isSomeAndEmpty pm.binname = false := by
    rcases h : pm.binname with _ | s
    · rfl
    · exact isEmpty_false_of_ne s (hbin s h)
  have hanyb : pm.binnames.any (fun name => name.isEmpty) = false := by
    rw [Bool.eq_false_iff]
    intro h
    obtain ⟨x, hx, hpx⟩ := List.any_eq_true.mp h
    exact hbins x hx ((String.isEmpty_iff x).mp hpx)
  have hcond : (pm.srcname.isNone && pm.binname.isNone && pm.binnames.isEmpty)
      = false := by
    rcases hsn : pm.srcname with _ | s
    · rcases hbn : pm.binname with _ | t
      · rcases hbns : pm.binnames with _ | ⟨x, xs⟩
        · exact absurd ⟨hsn, hbn, hbns⟩ hnames
        · rfl
      · rfl
    · rfl
  simp [PackageMaker.finalize, h1, h2, h3, h4, h5, h6, hraw, hcond, hsrcb,
    hbinb, hanyb, String.isEmpty_iff]

/-- Witness for C10: a concrete builder with an empty tracking identity
finalizes into the verbatim record. -/
theorem finalize_success_verbatim_witness :
    ({ PackageMaker.default with
        projectname_seed := some "proj"
        visiblename := some "disp"
        srcname := some "src"
        trackname := some ""
        rawversion := some "1.2.3"
        version := some "1.2.3" } : PackageMaker).finalize =
      .ok {
        subrepo := none
        srcname := some "src"
        binname := none
        binnames := []
        trackname := some ""
        visiblename := "disp"
        projectname_seed := "proj"
        rawversion := "1.2.3"
        arch := none
        maintainers := []
        category := none
        comment := none
        licenses := []
        extrafields := fun _ => none
        cpe_vendor := none
        cpe_product := none
        cpe_edition := none
        cpe_lang := none
        cpe_sw_edition := none
        cpe_target_sw := none
        cpe_target_hw := none
        cpe_other := none
        links := []
        version := "1.2.3"
        flags := ⟨0⟩
        flavors := [] } := by
  have h := finalize_success_verbatim
    { PackageMaker.default with
      projectname_seed := some "proj"
      visiblename := some "disp"
      srcname := some "src"
      trackname := some ""
      rawversion := some "1.2.3"
      version := some "1.2.3" }
    "proj" "disp" "1.2.3" "1.2.3" rfl (by decide) rfl (by decide) rfl
    (by decide) rfl
    (fun hc => Option.noConfusion hc.1)
    (fun s hs => by injection hs with h2; rw [← h2]; decide)
    (fun s hs => Option.noConfusion hs)
    (fun s hs => absurd hs (List.not_mem_nil s))
  exact h

end RepologyRs
